import Mathlib

/-!
marsimages: manifest decoding, catalog caching and bounded reads

A shallow embedding of `marsimages.go`.  The process-wide `imageCache`, the
sequence of `FetchCatalog` calls and the log are threaded through an explicit
`World`; the network and the slice allocator are parameters (`Env`).
Go `int` is the 64-bit two's complement integer, modelled as `Int` with an
explicit wrap; run-time faults (index / slice bounds) are `Outcome.fault`.
A Go slice length always fits in an `int`; the theorems about `CacheLatest`
carry this as the hypothesis `manifest.Sols.length ≤ maxInt`.
-/

namespace MarsImages

/-! ## Go run-time model -/

/-- Largest Go `int` (64-bit platforms). -/
def maxInt : Int := 2 ^ 63 - 1

/-- Smallest Go `int` (64-bit platforms). -/
def minInt : Int := -(2 ^ 63)

/-- Two's complement wrap-around of an integer result into the Go `int` range. -/
def wrapInt (x : Int) : Int := (x + 2 ^ 63) % 2 ^ 64 - 2 ^ 63

/-- Run-time faults raised by the Go run time. -/
inductive RuntimeFault where
  | indexOutOfRange (index : Int) (len : Nat)
  | sliceBoundsOutOfRange (high : Int) (cap : Nat)
  deriving DecidableEq, Repr

/-- Result of running a Go function: it returns a value or the run time faults. -/
inductive Outcome (α : Type) where
  | ret (v : α)
  | fault (p : RuntimeFault)
  deriving DecidableEq, Repr

/-- Go index expression `xs[i]` on a slice of length `xs.length`. -/
def index {α : Type} (xs : List α) (i : Int) : Outcome α :=
  if 0 ≤ i then
    match xs[i.toNat]? with
    | some x => .ret x
    | none => .fault (.indexOutOfRange i xs.length)
  else .fault (.indexOutOfRange i xs.length)

/-- Error value built by `errors.New(code, message)`. -/
structure APIError where
  code : Int
  message : String
  deriving DecidableEq, Repr

/-! ## Data model (struct declarations of `marsimages.go`) -/

/-- ManifestSol items in image manifest. -/
structure ManifestSol where
  Sol : Int := 0
  NumImages : Int := 0
  CatalogURL : String := ""
  LastUpdated : String := ""
  deriving DecidableEq, Repr

/-- ImageManifest, the decoded top-level manifest. -/
structure ImageManifest where
  LatestSol : Int := 0
  Sols : List ManifestSol := []
  NumImages : Int := 0
  deriving DecidableEq, Repr

/-- SolImage from catalog url. -/
structure SolImage where
  Sol : String := ""
  Instrument : String := ""
  URL : String := ""
  LMST : String := ""
  UTC : String := ""
  SampleType : String := ""
  ItemName : String := ""
  deriving DecidableEq, Repr

/-- SolCatalog items from CatalogURL. -/
structure SolCatalog where
  Sol : Int := 0
  Images : List SolImage := []
  deriving DecidableEq, Repr

/-- MarsImage data structure, normalized with custom meta. -/
structure MarsImage where
  ItemName : String := ""
  URL : String := ""
  Instrument : String := ""
  Sol : Int := 0
  LMST : String := ""
  UTC : String := ""
  deriving DecidableEq, Repr

/-- A Go slice of `MarsImage`: the `len` visible elements and the elements of
the backing array between `len` and `cap`. -/
structure Slice where
  elems : List MarsImage := []
  spare : List MarsImage := []
  deriving DecidableEq, Repr

/-- Capacity of a slice. -/
def Slice.cap (s : Slice) : Nat := s.elems.length + s.spare.length

/-- Go `append(s, x)`: store in place when capacity is left, otherwise move to
a fresh zeroed backing array with `slack` unused slots after the new element
(`slack` is the allocator's growth policy, a function of the old capacity). -/
def Slice.append (slack : Nat → Nat) (s : Slice) (x : MarsImage) : Slice :=
  match s.spare with
  | _ :: rest => { elems := s.elems ++ [x], spare := rest }
  | [] => { elems := s.elems ++ [x], spare := List.replicate (slack s.elems.length) {} }

/-- Go slice expression `s[:high]`; for a slice the upper bound is the capacity. -/
def Slice.sliceTo (s : Slice) (high : Int) : Outcome Slice :=
  if 0 ≤ high ∧ high ≤ (s.cap : Int) then
    .ret { elems := (s.elems ++ s.spare).take high.toNat,
           spare := (s.elems ++ s.spare).drop high.toNat }
  else .fault (.sliceBoundsOutOfRange high s.cap)

/-- ListOfImages data structure for MarsImage lists. -/
structure ListOfImages where
  Images : Slice := {}
  deriving DecidableEq, Repr

/-! ## JSON decoding driven by the struct tags -/

/-- A parsed JSON document. -/
inductive JSON where
  | null
  | bool (b : Bool)
  | int (n : Int)
  | float (literal : String)
  | str (s : String)
  | arr (items : List JSON)
  | obj (members : List (String × JSON))

/-- Errors reported by the JSON decoder. -/
inductive DecodeError where
  | syntaxError
  | typeMismatch (goType : String)
  deriving DecidableEq, Repr

/-- A struct field as declared in the source: its Go name and its tag, as the
list of `key:"value"` pairs written between the back quotes. -/
structure StructField where
  goName : String
  tag : List (String × String)
  deriving DecidableEq, Repr

/-- The JSON key of a field: the value of the `json` tag key when there is one,
otherwise the Go field name. -/
def StructField.jsonName (f : StructField) : String :=
  match f.tag.lookup "json" with
  | some n => if n = "" then f.goName else n
  | none => f.goName

/-- Simple case folding of one character, as far as it can reach an ASCII
letter: the ASCII letters, U+017F (long s) and U+212A (Kelvin sign); every
other character can only match a character outside ASCII, and all JSON names
of this program are ASCII. -/
def foldChar (c : Char) : Char :=
  if c = Char.ofNat 0x017F then 's'
  else if c = Char.ofNat 0x212A then 'k'
  else c.toLower

/-- Case folding used for the case-insensitive key match. -/
def foldName (s : String) : List Char := s.toList.map foldChar

/-- The field an object key is stored in: an exact match of the JSON name is
preferred, a case-insensitive match is accepted. -/
def findField (fields : List StructField) (key : String) : Option StructField :=
  match fields.find? (fun f => f.jsonName == key) with
  | some f => some f
  | none => fields.find? (fun f => foldName f.jsonName == foldName key)

/-- Decode a JSON value into an `int64` field. -/
def decodeInt64 (cur : Int) : JSON → Int × Option DecodeError
  | .int n => if -(2 ^ 63) ≤ n ∧ n ≤ 2 ^ 63 - 1 then (n, none)
              else (cur, some (.typeMismatch "int64"))
  | .null => (cur, none)
  | _ => (cur, some (.typeMismatch "int64"))

/-- Decode a JSON value into a `string` field. -/
def decodeString (cur : String) : JSON → String × Option DecodeError
  | .str s => (s, none)
  | .null => (cur, none)
  | _ => (cur, some (.typeMismatch "string"))

/-- Keep the earliest error. -/
def firstError (a b : Option DecodeError) : Option DecodeError :=
  match a with
  | some e => some e
  | none => b

/-- Decode the members of a JSON object into a struct, member by member: keys
without a field are ignored, a later duplicate overwrites, a value of the
wrong type leaves the field alone and the earliest such error is reported. -/
def decodeMembers {α : Type} (fields : List StructField)
    (set : α → String → JSON → α × Option DecodeError) :
    List (String × JSON) → α × Option DecodeError → α × Option DecodeError
  | [], acc => acc
  | (key, val) :: rest, (v, err) =>
    match findField fields key with
    | none => decodeMembers fields set rest (v, err)
    | some f =>
      let r := set v f.goName val
      decodeMembers fields set rest (r.1, firstError err r.2)

/-- Decode a JSON value into a struct. -/
def decodeStruct {α : Type} (goType : String) (fields : List StructField)
    (set : α → String → JSON → α × Option DecodeError) (cur : α) :
    JSON → α × Option DecodeError
  | .obj members => decodeMembers fields set members (cur, none)
  | .null => (cur, none)
  | _ => (cur, some (.typeMismatch goType))

/-- Decode the elements of a JSON array in place: element `i` is decoded into
what the backing array holds at index `i`, a zero element where the array has
to grow. -/
def decodeItems {α : Type} (elem : α → JSON → α × Option DecodeError) (zero : α) :
    List JSON → List α → List α × Option DecodeError
  | [], _ => ([], none)
  | j :: rest, backing =>
    let r := elem (backing.headD zero) j
    let rs := decodeItems elem zero rest backing.tail
    (r.1 :: rs.1, firstError r.2 rs.2)

/-- Decode a JSON value into a slice field, given the elements `cur` of the
slice and the elements `spare` its backing array holds past its length (left
there by an earlier, longer array under the same key).  The result is the new
elements and the new spare elements. -/
def decodeSlice {α : Type} (elem : α → JSON → α × Option DecodeError) (zero : α)
    (cur spare : List α) : JSON → (List α × List α) × Option DecodeError
  | .arr [] => (([], []), none)
  | .arr items =>
    let r := decodeItems elem zero items (cur ++ spare)
    ((r.1, (cur ++ spare).drop items.length), r.2)
  | .null => (([], []), none)
  | _ => ((cur, spare), some (.typeMismatch "slice"))

/-- Fields of `ManifestSol`, with their tags as written in the source. -/
def ManifestSol.fields : List StructField :=
  [ ⟨"Sol", [("json", "sol")]⟩,
    ⟨"NumImages", [("json", "num_images")]⟩,
    ⟨"CatalogURL", [("json", "catalog_url")]⟩,
    ⟨"LastUpdated", [("josn", "last_updated")]⟩ ]

/-- Store a JSON value in the named field of a `ManifestSol`. -/
def ManifestSol.setField (v : ManifestSol) (goName : String) (j : JSON) :
    ManifestSol × Option DecodeError :=
  if goName = "Sol" then
    let r := decodeInt64 v.Sol j; ({ v with Sol := r.1 }, r.2)
  else if goName = "NumImages" then
    let r := decodeInt64 v.NumImages j; ({ v with NumImages := r.1 }, r.2)
  else if goName = "CatalogURL" then
    let r := decodeString v.CatalogURL j; ({ v with CatalogURL := r.1 }, r.2)
  else if goName = "LastUpdated" then
    let r := decodeString v.LastUpdated j; ({ v with LastUpdated := r.1 }, r.2)
  else (v, none)

/-- Decode one entry of the manifest's `sols` array into the element `cur`. -/
def decodeManifestSol (cur : ManifestSol) (j : JSON) : ManifestSol × Option DecodeError :=
  decodeStruct "ManifestSol" ManifestSol.fields ManifestSol.setField cur j

/-- Fields of `ImageManifest`, with their tags as written in the source. -/
def ImageManifest.fields : List StructField :=
  [ ⟨"LatestSol", [("json", "latest_sol")]⟩,
    ⟨"Sols", [("json", "sols")]⟩,
    ⟨"NumImages", [("json", "num_images")]⟩ ]

/-- Store a JSON value in the named field of an `ImageManifest`; the state is
the struct and the spare elements of the backing array of `Sols`. -/
def ImageManifest.setField (st : ImageManifest × List ManifestSol) (goName : String)
    (j : JSON) : (ImageManifest × List ManifestSol) × Option DecodeError :=
  if goName = "LatestSol" then
    let r := decodeInt64 st.1.LatestSol j; (({ st.1 with LatestSol := r.1 }, st.2), r.2)
  else if goName = "Sols" then
    let r := decodeSlice decodeManifestSol {} st.1.Sols st.2 j
    (({ st.1 with Sols := r.1.1 }, r.1.2), r.2)
  else if goName = "NumImages" then
    let r := decodeInt64 st.1.NumImages j; (({ st.1 with NumImages := r.1 }, st.2), r.2)
  else (st, none)

/-- Fields of `SolImage`, with their tags as written in the source. -/
def SolImage.fields : List StructField :=
  [ ⟨"Sol", [("json", "sol")]⟩,
    ⟨"Instrument", [("json", "instrument")]⟩,
    ⟨"URL", [("json", "urlList")]⟩,
    ⟨"LMST", [("json", "lmst")]⟩,
    ⟨"UTC", [("json", "utc")]⟩,
    ⟨"SampleType", [("json", "sampleType")]⟩,
    ⟨"ItemName", [("json", "itemName")]⟩ ]

/-- Store a JSON value in the named field of a `SolImage`. -/
def SolImage.setField (v : SolImage) (goName : String) (j : JSON) :
    SolImage × Option DecodeError :=
  if goName = "Sol" then
    let r := decodeString v.Sol j; ({ v with Sol := r.1 }, r.2)
  else if goName = "Instrument" then
    let r := decodeString v.Instrument j; ({ v with Instrument := r.1 }, r.2)
  else if goName = "URL" then
    let r := decodeString v.URL j; ({ v with URL := r.1 }, r.2)
  else if goName = "LMST" then
    let r := decodeString v.LMST j; ({ v with LMST := r.1 }, r.2)
  else if goName = "UTC" then
    let r := decodeString v.UTC j; ({ v with UTC := r.1 }, r.2)
  else if goName = "SampleType" then
    let r := decodeString v.SampleType j; ({ v with SampleType := r.1 }, r.2)
  else if goName = "ItemName" then
    let r := decodeString v.ItemName j; ({ v with ItemName := r.1 }, r.2)
  else (v, none)

/-- Decode one entry of a catalog's `images` array into the element `cur`. -/
def decodeSolImage (cur : SolImage) (j : JSON) : SolImage × Option DecodeError :=
  decodeStruct "SolImage" SolImage.fields SolImage.setField cur j

/-- Fields of `SolCatalog`, with their tags as written in the source. -/
def SolCatalog.fields : List StructField :=
  [ ⟨"Sol", [("json", "sol")]⟩,
    ⟨"Images", [("json", "images")]⟩ ]

/-- Store a JSON value in the named field of a `SolCatalog`; the state is the
struct and the spare elements of the backing array of `Images`. -/
def SolCatalog.setField (st : SolCatalog × List SolImage) (goName : String) (j : JSON) :
    (SolCatalog × List SolImage) × Option DecodeError :=
  if goName = "Sol" then
    let r := decodeInt64 st.1.Sol j; (({ st.1 with Sol := r.1 }, st.2), r.2)
  else if goName = "Images" then
    let r := decodeSlice decodeSolImage {} st.1.Images st.2 j
    (({ st.1 with Images := r.1.1 }, r.1.2), r.2)
  else (st, none)

/-- The decoder call `json.NewDecoder(body).Decode(&v)` on a response body:
`none` is a body that is not a JSON document. -/
def decodeBody {α : Type} (decode : α → JSON → α × Option DecodeError) (zero : α) :
    Option JSON → α × Option DecodeError
  | none => (zero, some .syntaxError)
  | some j => decode zero j

/-! ## HTTP transport -/

/-- What one GET does: the request cannot be built, the client call fails, or
a response arrives with a body. -/
inductive HTTPResult where
  | requestError (err : String)
  | clientError (err : String)
  | response (body : Option JSON)

/-- FetchManifest downloads the manifest at the given baseURL. -/
def FetchManifest (http : String → HTTPResult) (baseURL : String) :
    ImageManifest × Option APIError :=
  match http baseURL with
  | .requestError err => ({}, some ⟨500, "Error building http request: " ++ err⟩)
  | .clientError err => ({}, some ⟨500, "Error making client request: " ++ err⟩)
  | .response body =>
    match decodeBody
        (decodeStruct "ImageManifest" ImageManifest.fields ImageManifest.setField)
        ({}, []) body with
    | ((manifest, _), some _) =>
      (manifest, some ⟨500, "Error decoding JSON response for url: " ++ baseURL⟩)
    | ((manifest, _), none) => (manifest, none)

/-- FetchCatalog downloads the image catalog at the given catalogURL. -/
def FetchCatalog (http : String → HTTPResult) (catalogURL : String) :
    SolCatalog × Option APIError :=
  match http catalogURL with
  | .requestError err => ({}, some ⟨500, "Error building http request: " ++ err⟩)
  | .clientError err => ({}, some ⟨500, "Error making client request: " ++ err⟩)
  | .response body =>
    match decodeBody
        (decodeStruct "SolCatalog" SolCatalog.fields SolCatalog.setField)
        ({}, []) body with
    | ((catalog, _), some _) =>
      (catalog, some ⟨500, "Error decoding JSON response for url: " ++ catalogURL⟩)
    | ((catalog, _), none) => (catalog, none)

/-! ## Process state -/

/-- One `log.Printf` call of `CacheLatest`, with its arguments. -/
inductive LogEntry where
  | fetchError (url : String) (err : APIError)
  | found (solImages : Nat) (total : Nat) (sol : Int)
  deriving DecidableEq, Repr

/-- The environment of the process: what the network answers to the `n`-th
catalog request, and the growth policy of the slice allocator. -/
structure Env where
  net : Nat → String → HTTPResult
  slack : Nat → Nat

/-- The observable state: the global `imageCache`, the URLs `FetchCatalog` was
called with so far (oldest first) and the log. -/
structure World where
  imageCache : ListOfImages := {}
  fetched : List String := []
  log : List LogEntry := []
  deriving DecidableEq, Repr

/-! ## CacheLatest and GetLatest -/

/-- The inner loop of `CacheLatest` over `catalog.Images`, carrying the cache
and the counter `solImages`. -/
def cacheImages (slack : Nat → Nat) : List SolImage → Slice × Nat → Slice × Nat
  | [], st => st
  | img :: rest, (cache, solImages) =>
    if img.SampleType ≠ "thumbnail" then
      let marsImage : MarsImage :=
        { ItemName := img.ItemName, URL := img.URL, Instrument := img.Instrument,
          LMST := img.LMST, UTC := img.UTC }
      cacheImages slack rest (cache.append slack marsImage, solImages + 1)
    else cacheImages slack rest (cache, solImages)

/-- The body of the outer loop of `CacheLatest` once `url` is read: fetch the
catalog, log a failure, or cache the images of the catalog and log the count. -/
def cacheSol (env : Env) (w : World) (url : String) : World :=
  match FetchCatalog (env.net w.fetched.length) url with
  | (_, some err) =>
    { w with fetched := w.fetched ++ [url], log := w.log ++ [.fetchError url err] }
  | (catalog, none) =>
    let r := cacheImages env.slack catalog.Images (w.imageCache.Images, 0)
    { imageCache := { Images := r.1 },
      fetched := w.fetched ++ [url],
      log := w.log ++ [.found r.2 catalog.Images.length catalog.Sol] }

/-- The outer loop `for i := ...; i < total; i++` of `CacheLatest`, from index
`i`; `none` when the fuel runs out before the loop ends. -/
def cacheLoop (env : Env) (manifest : ImageManifest) (total : Int) :
    Nat → Int → World → Option (World × Outcome Unit)
  | 0, _, _ => none
  | fuel + 1, i, w =>
    if i < total then
      match index manifest.Sols i with
      | .fault p => some (w, .fault p)
      | .ret sol => cacheLoop env manifest total fuel (wrapInt (i + 1)) (cacheSol env w sol.CatalogURL)
    else some (w, .ret ())

/-- CacheLatest caches the given manifest and number of sols in memory. -/
def CacheLatest (env : Env) (manifest : ImageManifest) (sols : Int) (w : World) :
    Option (World × Outcome (Bool × Option APIError)) :=
  let total : Int := manifest.Sols.length
  match cacheLoop env manifest total (manifest.Sols.length + 1) (wrapInt (total - sols)) w with
  | none => none
  | some (w', .fault p) => some (w', .fault p)
  | some (w', .ret ()) => some (w', .ret (true, none))

/-- GetLatest returns the latest list of images limited by the value of count. -/
def GetLatest (_manifest : ImageManifest) (count : Int) (w : World) :
    World × Outcome (ListOfImages × Option APIError) :=
  match w.imageCache.Images.sliceTo count with
  | .fault p => (w, .fault p)
  | .ret s => (w, .ret ({ Images := s }, none))

/-! ## Derived descriptions of the cache contents -/

/-- The record `CacheLatest` builds from a catalog entry. -/
def recordOf (img : SolImage) : MarsImage :=
  { ItemName := img.ItemName, URL := img.URL, Instrument := img.Instrument,
    LMST := img.LMST, UTC := img.UTC }

/-- Entries that are not thumbnails. -/
def fullSize (img : SolImage) : Bool := img.SampleType != "thumbnail"

/-- The records the loop body of `CacheLatest` stores for one period, given
the result of its fetch: nothing when the fetch failed, the records built from
the non-thumbnail entries in catalog order when it succeeded. -/
def periodBlock (r : SolCatalog × Option APIError) : List MarsImage :=
  match r.2 with
  | some _ => []
  | none => (r.1.Images.filter fullSize).map recordOf

/-- The records `CacheLatest` stores for a list of periods, the first of them
being answered as the `n`-th catalog request. -/
def blocksFrom (env : Env) : Nat → List ManifestSol → List MarsImage
  | _, [] => []
  | n, p :: rest =>
    periodBlock (FetchCatalog (env.net n) p.CatalogURL) ++ blocksFrom env (n + 1) rest

/-- The loop body run over a list of periods in order. -/
def cacheSols (env : Env) (sols : List ManifestSol) (w : World) : World :=
  sols.foldl (fun w sol => cacheSol env w sol.CatalogURL) w

/-! ## The loader as the specification words it (sections 4.3 to 4.5) -/

/-- Image Normalizer (4.3): `none` (skipped) for a thumbnail, otherwise the
fields mapped directly and the period set from the enclosing catalog's
period. -/
def normalize (entry : SolImage) (period : Int) : Option MarsImage :=
  if entry.SampleType = "thumbnail" then none
  else some { ItemName := entry.ItemName, URL := entry.URL, Instrument := entry.Instrument,
              Sol := period, LMST := entry.LMST, UTC := entry.UTC }

/-- The block a period contributes according to the specification: empty when
its fetch failed, its non-thumbnail entries normalized in catalog order when
it succeeded. -/
def normalizedBlock (r : SolCatalog × Option APIError) : List MarsImage :=
  match r.2 with
  | some _ => []
  | none => r.1.Images.filterMap (fun entry => normalize entry r.1.Sol)

/-- Concatenation of the normalized blocks of a list of periods, the first of
them being answered as the `n`-th catalog request. -/
def normalizedBlocksFrom (env : Env) : Nat → List ManifestSol → List MarsImage
  | _, [] => []
  | n, p :: rest =>
    normalizedBlock (FetchCatalog (env.net n) p.CatalogURL)
      ++ normalizedBlocksFrom env (n + 1) rest

/-- Step 4 of the loader: normalize every raw entry of a catalog and
accumulate the records that are not skipped. -/
def accumulate (period : Int) : List SolImage → List MarsImage → List MarsImage
  | [], acc => acc
  | entry :: rest, acc =>
    match normalize entry period with
    | none => accumulate period rest acc
    | some record => accumulate period rest (acc ++ [record])

/-- Steps 3 to 5 of the loader over the selected periods: a failed fetch is
skipped, a fetched catalog is accumulated and appended to the store in one
append. -/
def loadPeriods (env : Env) : Nat → List ManifestSol → List MarsImage → List MarsImage
  | _, [], records => records
  | n, p :: rest, records =>
    match FetchCatalog (env.net n) p.CatalogURL with
    | (_, some _) => loadPeriods env (n + 1) rest records
    | (catalog, none) =>
      loadPeriods env (n + 1) rest (records ++ accumulate catalog.Sol catalog.Images [])

/-- Steps 1 and 2 of the loader: select the last `periodsToLoad` periods. -/
def loadLatestSpec (env : Env) (manifest : ImageManifest) (periodsToLoad : Nat)
    (n : Nat) (records : List MarsImage) : List MarsImage :=
  loadPeriods env n (manifest.Sols.drop (manifest.Sols.length - periodsToLoad)) records

/-- A record with its period field cleared. -/
def withoutSol (r : MarsImage) : MarsImage := { r with Sol := 0 }

/-! ## Sample inputs -/

/-- A catalog document with three entries, one of them a thumbnail. -/
def sampleCatalog : JSON :=
  .obj [("sol", .int 5),
        ("images", .arr [
          .obj [("sol", .str "00005"), ("instrument", .str "NAV"), ("urlList", .str "http://x/a.jpg"),
                ("lmst", .str "l1"), ("utc", .str "t1"), ("sampleType", .str "full"),
                ("itemName", .str "a")],
          .obj [("sol", .str "00005"), ("instrument", .str "NAV"), ("urlList", .str "http://x/b.jpg"),
                ("lmst", .str "l2"), ("utc", .str "t2"), ("sampleType", .str "thumbnail"),
                ("itemName", .str "b")],
          .obj [("sol", .str "00005"), ("instrument", .str "MAST"), ("urlList", .str "http://x/c.jpg"),
                ("lmst", .str "l3"), ("utc", .str "t3"), ("sampleType", .str "subframe"),
                ("itemName", .str "c")]])]

/-- A network where only the catalog at `p3` can be fetched. -/
def sampleEnv : Env :=
  { net := fun _ url => if url = "p3" then .response (some sampleCatalog)
                        else .clientError "connection refused",
    slack := fun n => n - 1 }

/-- A manifest with three periods. -/
def sampleManifest : ImageManifest :=
  { LatestSol := 3,
    Sols := [ { Sol := 1, NumImages := 4, CatalogURL := "p1", LastUpdated := "d1" },
              { Sol := 2, NumImages := 5, CatalogURL := "p2", LastUpdated := "d2" },
              { Sol := 3, NumImages := 3, CatalogURL := "p3", LastUpdated := "d3" } ],
    NumImages := 12 }

/-- A manifest document with one period. -/
def sampleManifestJSON : JSON :=
  .obj [("latest_sol", .int 7),
        ("sols", .arr [
          .obj [("sol", .int 7), ("num_images", .int 2), ("catalog_url", .str "p7"),
                ("last_updated", .str "2017-01-01T00:00:00Z")]]),
        ("num_images", .int 2)]

/-! ## Lemmas -/

theorem wrapInt_of_inRange (x : Int) (h1 : minInt ≤ x) (h2 : x ≤ maxInt) : wrapInt x = x := by
  unfold wrapInt
  unfold minInt at h1
  unfold maxInt at h2
  omega

theorem index_natCast {α : Type} (xs : List α) (n : Nat) (x : α) (h : xs[n]? = some x) :
    index xs (n : Int) = .ret x := by
  simp [index, h]

theorem index_neg {α : Type} (xs : List α) (i : Int) (h : i < 0) :
    index xs i = .fault (.indexOutOfRange i xs.length) := by
  simp [index, not_le.mpr h]

theorem Slice.append_elems (slack : Nat → Nat) (s : Slice) (x : MarsImage) :
    (s.append slack x).elems = s.elems ++ [x] := by
  unfold Slice.append
  cases s.spare <;> rfl

theorem cacheImages_elems (slack : Nat → Nat) (imgs : List SolImage) (c : Slice) (n : Nat) :
    (cacheImages slack imgs (c, n)).1.elems = c.elems ++ (imgs.filter fullSize).map recordOf := by
  induction imgs generalizing c n with
  | nil => simp [cacheImages]
  | cons img rest ih =>
    by_cases h : img.SampleType = "thumbnail"
    · simp [cacheImages, h, ih, fullSize]
    · simp [cacheImages, h, ih, fullSize, Slice.append_elems, recordOf]

theorem cacheSol_fetched (env : Env) (w : World) (url : String) :
    (cacheSol env w url).fetched = w.fetched ++ [url] := by
  unfold cacheSol
  split <;> rfl

theorem cacheSol_elems (env : Env) (w : World) (url : String) :
    (cacheSol env w url).imageCache.Images.elems
      = w.imageCache.Images.elems ++ periodBlock (FetchCatalog (env.net w.fetched.length) url) := by
  unfold cacheSol
  split
  · next c err h => simp [h, periodBlock]
  · next c h => simp [h, periodBlock, cacheImages_elems]

theorem cacheSols_fetched (env : Env) (sols : List ManifestSol) (w : World) :
    (cacheSols env sols w).fetched = w.fetched ++ sols.map (fun s => s.CatalogURL) := by
  induction sols generalizing w with
  | nil => simp [cacheSols]
  | cons s rest ih =>
    have h := ih (cacheSol env w s.CatalogURL)
    simp only [cacheSols, List.foldl_cons] at h ⊢
    rw [h, cacheSol_fetched]
    simp

theorem cacheSols_elems (env : Env) (sols : List ManifestSol) (w : World) :
    (cacheSols env sols w).imageCache.Images.elems
      = w.imageCache.Images.elems ++ blocksFrom env w.fetched.length sols := by
  induction sols generalizing w with
  | nil => simp [cacheSols, blocksFrom]
  | cons s rest ih =>
    have h := ih (cacheSol env w s.CatalogURL)
    simp only [cacheSols, List.foldl_cons] at h ⊢
    rw [h, cacheSol_elems, cacheSol_fetched]
    simp [blocksFrom]

theorem accumulate_eq (period : Int) (imgs : List SolImage) (acc : List MarsImage) :
    accumulate period imgs acc = acc ++ imgs.filterMap (fun entry => normalize entry period) := by
  induction imgs generalizing acc with
  | nil => simp [accumulate]
  | cons img rest ih =>
    by_cases h : img.SampleType = "thumbnail"
    · simp [accumulate, normalize, h, ih]
    · simp [accumulate, normalize, h, ih]

theorem loadPeriods_eq (env : Env) (sols : List ManifestSol) (n : Nat) (records : List MarsImage) :
    loadPeriods env n sols records = records ++ normalizedBlocksFrom env n sols := by
  induction sols generalizing n records with
  | nil => simp [loadPeriods, normalizedBlocksFrom]
  | cons s rest ih =>
    unfold loadPeriods
    split
    · next c err h => rw [ih]; simp [normalizedBlocksFrom, normalizedBlock, h]
    · next c h => rw [ih]; simp [normalizedBlocksFrom, normalizedBlock, h, accumulate_eq]

theorem stored_eq_normalized_withoutSol (period : Int) (imgs : List SolImage) :
    (imgs.filter fullSize).map recordOf
      = (imgs.filterMap (fun entry => normalize entry period)).map withoutSol := by
  induction imgs with
  | nil => simp
  | cons img rest ih =>
    by_cases h : img.SampleType = "thumbnail"
    · simpa [fullSize, normalize, h] using ih
    · simpa [fullSize, normalize, h, recordOf, withoutSol] using ih

theorem periodBlock_eq (r : SolCatalog × Option APIError) :
    periodBlock r = (normalizedBlock r).map withoutSol := by
  unfold periodBlock normalizedBlock
  split
  · simp
  · exact stored_eq_normalized_withoutSol _ _

theorem blocksFrom_eq (env : Env) (n : Nat) (sols : List ManifestSol) :
    blocksFrom env n sols = (normalizedBlocksFrom env n sols).map withoutSol := by
  induction sols generalizing n with
  | nil => simp [blocksFrom, normalizedBlocksFrom]
  | cons s rest ih => simp [blocksFrom, normalizedBlocksFrom, ih, periodBlock_eq]

theorem cacheLoop_natCast (env : Env) (m : ImageManifest) (hlen : (m.Sols.length : Int) ≤ maxInt)
    (fuel n : Nat) (w : World) (hn : n ≤ m.Sols.length) (hfuel : m.Sols.length - n < fuel) :
    cacheLoop env m m.Sols.length fuel n w = some (cacheSols env (m.Sols.drop n) w, .ret ()) := by
  induction fuel generalizing n w with
  | zero => omega
  | succ fuel ih =>
    unfold cacheLoop
    by_cases hlt : n < m.Sols.length
    · have hget : m.Sols[n]? = some m.Sols[n] := List.getElem?_eq_getElem hlt
      have hw : wrapInt ((n : Int) + 1) = ((n + 1 : Nat) : Int) := by
        rw [wrapInt_of_inRange]
        · push_cast; rfl
        · unfold minInt; omega
        · omega
      have hcast : (n : Int) < (m.Sols.length : Int) := by exact_mod_cast hlt
      rw [if_pos hcast, index_natCast _ _ _ hget]
      simp only
      rw [hw, ih (n + 1) _ (by omega) (by omega)]
      rw [List.drop_eq_getElem_cons hlt]
      simp only [cacheSols, List.foldl_cons]
    · have hcast : ¬ (n : Int) < (m.Sols.length : Int) := by exact_mod_cast hlt
      have : n = m.Sols.length := by omega
      rw [if_neg hcast]
      simp [this, cacheSols]

theorem CacheLatest_inRange (env : Env) (m : ImageManifest) (k : Nat) (w : World)
    (hk : k ≤ m.Sols.length) (hlen : (m.Sols.length : Int) ≤ maxInt) :
    CacheLatest env m k w
      = some (cacheSols env (m.Sols.drop (m.Sols.length - k)) w, .ret (true, none)) := by
  unfold CacheLatest
  have hw : wrapInt ((m.Sols.length : Int) - (k : Int)) = ((m.Sols.length - k : Nat) : Int) := by
    rw [wrapInt_of_inRange]
    · omega
    · unfold minInt; omega
    · omega
  simp only [hw]
  rw [cacheLoop_natCast env m hlen _ _ w (by omega) (by omega)]

theorem cacheLoop_neg (env : Env) (m : ImageManifest) (fuel : Nat) (i : Int) (w : World)
    (hi : i < 0) :
    cacheLoop env m m.Sols.length (fuel + 1) i w
      = some (w, .fault (.indexOutOfRange i m.Sols.length)) := by
  unfold cacheLoop
  have h : i < (m.Sols.length : Int) := by omega
  rw [if_pos h, index_neg _ _ hi]

theorem cacheLoop_done (env : Env) (m : ImageManifest) (fuel : Nat) (i : Int) (w : World)
    (hi : (m.Sols.length : Int) ≤ i) :
    cacheLoop env m m.Sols.length (fuel + 1) i w = some (w, .ret ()) := by
  unfold cacheLoop
  rw [if_neg (not_lt.mpr hi)]

theorem CacheLatest_total (env : Env) (m : ImageManifest) (sols : Int) (w : World)
    (hlen : (m.Sols.length : Int) ≤ maxInt) :
    ∃ w' out, CacheLatest env m sols w = some (w', out) ∧
      w.imageCache.Images.elems <+: w'.imageCache.Images.elems := by
  unfold CacheLatest
  rcases lt_or_le (wrapInt ((m.Sols.length : Int) - sols)) 0 with hneg | hpos
  · refine ⟨w, .fault (.indexOutOfRange (wrapInt ((m.Sols.length : Int) - sols)) m.Sols.length),
      ?_, List.prefix_refl _⟩
    simp only [cacheLoop_neg env m _ _ w hneg]
  · rcases le_or_lt (m.Sols.length : Int) (wrapInt ((m.Sols.length : Int) - sols)) with hge | hlt
    · refine ⟨w, .ret (true, none), ?_, List.prefix_refl _⟩
      simp only [cacheLoop_done env m _ _ w hge]
    · obtain ⟨n, hn⟩ := Int.eq_ofNat_of_zero_le hpos
      rw [hn] at hlt
      have hlt' : n < m.Sols.length := by exact_mod_cast hlt
      refine ⟨cacheSols env (m.Sols.drop n) w, .ret (true, none), ?_, ?_⟩
      · simp only [hn]
        rw [cacheLoop_natCast env m hlen _ _ w (by omega) (by omega)]
      · rw [cacheSols_elems]
        exact List.prefix_append _ _

theorem CacheLatest_cache_upToSol (env : Env) (manifest : ImageManifest) (k : Nat) (w : World)
    (hk : k ≤ manifest.Sols.length) (hlen : (manifest.Sols.length : Int) ≤ maxInt) :
    ∃ w', CacheLatest env manifest k w = some (w', .ret (true, none)) ∧
      w'.imageCache.Images.elems
        = w.imageCache.Images.elems
          ++ (normalizedBlocksFrom env w.fetched.length
                (manifest.Sols.drop (manifest.Sols.length - k))).map withoutSol ∧
      loadLatestSpec env manifest k w.fetched.length w.imageCache.Images.elems
        = w.imageCache.Images.elems
          ++ normalizedBlocksFrom env w.fetched.length
                (manifest.Sols.drop (manifest.Sols.length - k)) := by
  refine ⟨_, CacheLatest_inRange env manifest k w hk hlen, ?_, ?_⟩
  · rw [cacheSols_elems, blocksFrom_eq]
  · rw [loadLatestSpec, loadPeriods_eq]

/-! ## Claims -/

/-- C1: for a manifest with `L` periods and `k ≤ L`, `CacheLatest manifest k`
returns after calling `FetchCatalog` exactly `k` times, on the catalog URLs of
`Sols[L-k], ..., Sols[L-1]` in that order and on nothing else. -/
theorem CacheLatest_fetches_last_k (env : Env) (manifest : ImageManifest) (k : Nat) (w : World)
    (hk : k ≤ manifest.Sols.length) (hlen : (manifest.Sols.length : Int) ≤ maxInt) :
    ∃ w' urls, CacheLatest env manifest k w = some (w', .ret (true, none)) ∧
      w'.fetched = w.fetched ++ urls ∧
      urls.length = k ∧
      urls = (manifest.Sols.drop (manifest.Sols.length - k)).map (fun s => s.CatalogURL) ∧
      ∀ j, j < k →
        urls[j]? = (manifest.Sols[manifest.Sols.length - k + j]?).map (fun s => s.CatalogURL) := by
  refine ⟨_, _, CacheLatest_inRange env manifest k w hk hlen, cacheSols_fetched _ _ _, ?_, rfl, ?_⟩
  · simp only [List.length_map, List.length_drop]
    omega
  · intro j _
    simp [List.getElem?_map, List.getElem?_drop]

/-- C1 at the three-period manifest with `k = 2`: `p2` and `p3` are fetched, `p1` is not. -/
theorem CacheLatest_fetches_last_k_witness :
    ∃ w' urls, CacheLatest sampleEnv sampleManifest (2 : Nat) {} = some (w', .ret (true, none)) ∧
      w'.fetched = ([] : List String) ++ urls ∧
      urls.length = 2 ∧
      urls = (sampleManifest.Sols.drop (sampleManifest.Sols.length - 2)).map
        (fun s => s.CatalogURL) ∧
      ∀ j, j < 2 →
        urls[j]? = (sampleManifest.Sols[sampleManifest.Sols.length - 2 + j]?).map
          (fun s => s.CatalogURL) :=
  CacheLatest_fetches_last_k sampleEnv sampleManifest 2 {} (by decide) (by decide)

/-- C6: for `k ≤ L` and whatever the network answers to each catalog request,
`CacheLatest manifest k` returns `(true, nil)`. -/
theorem CacheLatest_returns_true (env : Env) (manifest : ImageManifest) (k : Nat) (w : World)
    (hk : k ≤ manifest.Sols.length) (hlen : (manifest.Sols.length : Int) ≤ maxInt) :
    ∃ w', CacheLatest env manifest k w = some (w', .ret (true, none)) :=
  ⟨_, CacheLatest_inRange env manifest k w hk hlen⟩

/-- C6 on a network where every request fails. -/
theorem CacheLatest_returns_true_witness :
    ∃ w', CacheLatest { net := fun _ _ => .clientError "down", slack := fun n => n }
      sampleManifest (3 : Nat) {} = some (w', .ret (true, none)) :=
  CacheLatest_returns_true _ sampleManifest 3 {} (by decide) (by decide)

/-- C7 on the code: with the fetch of `p2` failing and `p3` answering a
catalog of period 5 with two non-thumbnail entries, `CacheLatest manifest 2`
returns `(true, nil)` and stores two records, in catalog order, with
`Sol = 0`; the entries normalized as the specification says, and the store of
its per-period loader, carry `Sol = 5`, so the cache is not the initial cache
followed by the normalized blocks. -/
theorem CacheLatest_cache_loses_period :
    CacheLatest sampleEnv sampleManifest 2 {}
      = some ({ imageCache := { Images := {
                  elems := [ { ItemName := "a", URL := "http://x/a.jpg", Instrument := "NAV",
                               Sol := 0, LMST := "l1", UTC := "t1" },
                             { ItemName := "c", URL := "http://x/c.jpg", Instrument := "MAST",
                               Sol := 0, LMST := "l3", UTC := "t3" } ],
                  spare := [] } },
                fetched := ["p2", "p3"],
                log := [ .fetchError "p2" ⟨500, "Error making client request: connection refused"⟩,
                         .found 2 3 5 ] },
              .ret (true, none)) ∧
    ([] : List MarsImage) ++ normalizedBlocksFrom sampleEnv 0
        (sampleManifest.Sols.drop (sampleManifest.Sols.length - 2))
      = [ { ItemName := "a", URL := "http://x/a.jpg", Instrument := "NAV",
            Sol := 5, LMST := "l1", UTC := "t1" },
          { ItemName := "c", URL := "http://x/c.jpg", Instrument := "MAST",
            Sol := 5, LMST := "l3", UTC := "t3" } ] ∧
    loadLatestSpec sampleEnv sampleManifest 2 0 []
      = [ { ItemName := "a", URL := "http://x/a.jpg", Instrument := "NAV",
            Sol := 5, LMST := "l1", UTC := "t1" },
          { ItemName := "c", URL := "http://x/c.jpg", Instrument := "MAST",
            Sol := 5, LMST := "l3", UTC := "t3" } ] := by
  decide

/-- C3: when the fetch of a period succeeds, the loop body of `CacheLatest`
adds to the cache exactly one record per entry whose `SampleType` is not
`"thumbnail"`, in catalog order, with `ItemName`, `URL`, `Instrument`, `LMST`
and `UTC` copied from the entry, and nothing for a thumbnail: the cache grows
by the number of non-thumbnail entries. -/
theorem cacheSol_adds_fullSize_records (env : Env) (w : World) (url : String)
    (catalog : SolCatalog)
    (hfetch : FetchCatalog (env.net w.fetched.length) url = (catalog, none)) :
    ∃ added, (cacheSol env w url).imageCache.Images.elems = w.imageCache.Images.elems ++ added ∧
      List.Forall₂
        (fun (img : SolImage) (r : MarsImage) =>
          r.ItemName = img.ItemName ∧ r.URL = img.URL ∧ r.Instrument = img.Instrument ∧
          r.LMST = img.LMST ∧ r.UTC = img.UTC)
        (catalog.Images.filter (fun img => img.SampleType != "thumbnail")) added ∧
      (cacheSol env w url).imageCache.Images.elems.length
        = w.imageCache.Images.elems.length
          + catalog.Images.countP (fun img => img.SampleType != "thumbnail") := by
  have hf : fullSize = fun img => img.SampleType != "thumbnail" := rfl
  refine ⟨(catalog.Images.filter fullSize).map recordOf, ?_, ?_, ?_⟩
  · rw [cacheSol_elems, hfetch]; rfl
  · rw [List.forall₂_map_right_iff, hf, List.forall₂_same]
    intro img _
    exact ⟨rfl, rfl, rfl, rfl, rfl⟩
  · rw [cacheSol_elems, hfetch, List.countP_eq_length_filter, ← hf]
    simp [periodBlock]

/-- C3 on the catalog with three entries, one of them a thumbnail: the cache
grows by two records. -/
theorem cacheSol_adds_fullSize_records_witness :
    (FetchCatalog (sampleEnv.net 0) "p3").1.Images.countP
        (fun img => img.SampleType != "thumbnail") = 2 ∧
    ∃ added, (cacheSol sampleEnv {} "p3").imageCache.Images.elems
        = ([] : List MarsImage) ++ added ∧
      List.Forall₂
        (fun (img : SolImage) (r : MarsImage) =>
          r.ItemName = img.ItemName ∧ r.URL = img.URL ∧ r.Instrument = img.Instrument ∧
          r.LMST = img.LMST ∧ r.UTC = img.UTC)
        ((FetchCatalog (sampleEnv.net 0) "p3").1.Images.filter
          (fun img => img.SampleType != "thumbnail")) added ∧
      (cacheSol sampleEnv {} "p3").imageCache.Images.elems.length
        = 0 + (FetchCatalog (sampleEnv.net 0) "p3").1.Images.countP
            (fun img => img.SampleType != "thumbnail") :=
  ⟨by decide,
   cacheSol_adds_fullSize_records sampleEnv {} "p3" (FetchCatalog (sampleEnv.net 0) "p3").1
     (by decide)⟩

/-- C4: for `0 ≤ n ≤` number of stored records, `GetLatest _ n` returns with a
nil error the first `n` stored records in order and leaves the state as it
was, so a second call returns the same. -/
theorem GetLatest_first_n (manifest : ImageManifest) (n : Int) (w : World)
    (h0 : 0 ≤ n) (hn : n ≤ (w.imageCache.Images.elems.length : Int)) :
    ∃ loi, GetLatest manifest n w = (w, .ret (loi, none)) ∧
      loi.Images.elems = w.imageCache.Images.elems.take n.toNat ∧
      GetLatest manifest n (GetLatest manifest n w).1 = GetLatest manifest n w := by
  have hcap : n ≤ (w.imageCache.Images.cap : Int) := by
    unfold Slice.cap
    push_cast
    omega
  have hnat : n.toNat ≤ w.imageCache.Images.elems.length := by omega
  refine ⟨{ Images := { elems := (w.imageCache.Images.elems ++ w.imageCache.Images.spare).take n.toNat,
                        spare := (w.imageCache.Images.elems ++ w.imageCache.Images.spare).drop n.toNat } },
    ?_, ?_, ?_⟩
  · simp [GetLatest, Slice.sliceTo, h0, hcap]
  · simp [List.take_append_of_le_length hnat]
  · simp [GetLatest, Slice.sliceTo, h0, hcap]

/-- C4 after one load that stored two records: `GetLatest _ 1` gives the first. -/
theorem GetLatest_first_n_witness :
    ∃ loi, GetLatest sampleManifest 1 (cacheSol sampleEnv {} "p3")
        = (cacheSol sampleEnv {} "p3", .ret (loi, none)) ∧
      loi.Images.elems = (cacheSol sampleEnv {} "p3").imageCache.Images.elems.take (1 : Int).toNat ∧
      GetLatest sampleManifest 1 (GetLatest sampleManifest 1 (cacheSol sampleEnv {} "p3")).1
        = GetLatest sampleManifest 1 (cacheSol sampleEnv {} "p3") :=
  GetLatest_first_n sampleManifest 1 (cacheSol sampleEnv {} "p3") (by decide) (by decide)

/-- C8: `CacheLatest`, with any count and any network, ends in a state whose
stored records start with the records stored before, and `GetLatest` leaves
the state as it was. -/
theorem cache_never_shrinks (env : Env) (manifest : ImageManifest) (w : World)
    (hlen : (manifest.Sols.length : Int) ≤ maxInt) :
    (∀ sols : Int, ∃ w' out, CacheLatest env manifest sols w = some (w', out) ∧
      w.imageCache.Images.elems <+: w'.imageCache.Images.elems) ∧
    (∀ count : Int, (GetLatest manifest count w).1 = w) := by
  refine ⟨fun sols => CacheLatest_total env manifest sols w hlen, fun count => ?_⟩
  unfold GetLatest
  split <;> rfl

/-- C8 on a state that already holds two records. -/
theorem cache_never_shrinks_witness :
    (∀ sols : Int, ∃ w' out,
      CacheLatest sampleEnv sampleManifest sols (cacheSol sampleEnv {} "p3") = some (w', out) ∧
      (cacheSol sampleEnv {} "p3").imageCache.Images.elems <+: w'.imageCache.Images.elems) ∧
    (∀ count : Int, (GetLatest sampleManifest count (cacheSol sampleEnv {} "p3")).1
      = cacheSol sampleEnv {} "p3") :=
  cache_never_shrinks sampleEnv sampleManifest (cacheSol sampleEnv {} "p3") (by decide)

/-- C10, amended: when `total - sols` does not wrap around, `CacheLatest`
returns without a fault exactly when `sols ≤ len(manifest.Sols)`; for
`sols ≤ 0` it returns `(true, nil)` with no fetch and the cache untouched; for
`sols > len(manifest.Sols)` the first access is at the negative index
`len - sols` and faults before any fetch or change of the cache. -/
theorem CacheLatest_index_safety (env : Env) (manifest : ImageManifest) (sols : Int) (w : World)
    (hlen : (manifest.Sols.length : Int) ≤ maxInt) (hmax : sols ≤ maxInt)
    (hwrap : (manifest.Sols.length : Int) - sols ≤ maxInt) :
    ((∃ w', CacheLatest env manifest sols w = some (w', .ret (true, none)))
      ↔ sols ≤ manifest.Sols.length) ∧
    (sols ≤ 0 → CacheLatest env manifest sols w = some (w, .ret (true, none))) ∧
    ((manifest.Sols.length : Int) < sols →
      CacheLatest env manifest sols w
        = some (w, .fault (.indexOutOfRange ((manifest.Sols.length : Int) - sols)
            manifest.Sols.length))) := by
  have hw : wrapInt ((manifest.Sols.length : Int) - sols) = (manifest.Sols.length : Int) - sols := by
    apply wrapInt_of_inRange
    · unfold minInt; unfold maxInt at hmax; omega
    · exact hwrap
  have hle : sols ≤ 0 → CacheLatest env manifest sols w = some (w, .ret (true, none)) := by
    intro h0
    unfold CacheLatest
    simp only [hw]
    rw [cacheLoop_done env manifest _ _ w (by omega)]
  have hgt : (manifest.Sols.length : Int) < sols →
      CacheLatest env manifest sols w
        = some (w, .fault (.indexOutOfRange ((manifest.Sols.length : Int) - sols)
            manifest.Sols.length)) := by
    intro h
    unfold CacheLatest
    simp only [hw]
    rw [cacheLoop_neg env manifest _ _ w (by omega)]
  refine ⟨⟨?_, ?_⟩, hle, hgt⟩
  · rintro ⟨w', h⟩
    by_contra hc
    rw [hgt (by omega)] at h
    simp at h
  · intro h
    rcases le_or_lt sols 0 with h0 | h0
    · exact ⟨w, hle h0⟩
    · obtain ⟨k, hk⟩ := Int.eq_ofNat_of_zero_le (le_of_lt h0)
      subst hk
      exact ⟨_, CacheLatest_inRange env manifest k w (by exact_mod_cast h) hlen⟩

/-- C10, amended, at the three-period manifest with `sols = 4`. -/
theorem CacheLatest_index_safety_witness :
    ((∃ w', CacheLatest sampleEnv sampleManifest 4 {} = some (w', .ret (true, none)))
      ↔ (4 : Int) ≤ sampleManifest.Sols.length) ∧
    ((4 : Int) ≤ 0 → CacheLatest sampleEnv sampleManifest 4 {} = some ({}, .ret (true, none))) ∧
    ((sampleManifest.Sols.length : Int) < 4 →
      CacheLatest sampleEnv sampleManifest 4 {}
        = some ({}, .fault (.indexOutOfRange ((sampleManifest.Sols.length : Int) - 4)
            sampleManifest.Sols.length))) :=
  CacheLatest_index_safety sampleEnv sampleManifest 4 {} (by decide) (by decide) (by decide)

/-- C10 as stated fails: with `sols` the smallest `int`, which is `≤ 0`,
`total - sols` wraps to a negative index, the loop body runs and the first
access faults. -/
theorem CacheLatest_minInt_faults :
    minInt ≤ -(2 ^ 63) ∧ (-(2 ^ 63) : Int) ≤ maxInt ∧ (-(2 ^ 63) : Int) ≤ 0 ∧
    (-(2 ^ 63) : Int) ≤ sampleManifest.Sols.length ∧
    CacheLatest sampleEnv sampleManifest (-(2 ^ 63)) {}
      = some ({}, .fault (.indexOutOfRange (3 - 2 ^ 63) 3)) := by
  decide

/-- C2 on the code: the fetched catalog has period 5, the records `CacheLatest`
stores for it have `Sol = 0`. -/
theorem CacheLatest_leaves_Sol_zero :
    (FetchCatalog (sampleEnv.net 0) "p3").2 = none ∧
    (FetchCatalog (sampleEnv.net 0) "p3").1.Sol = 5 ∧
    CacheLatest sampleEnv sampleManifest 1 {}
      = some ({ imageCache := { Images := {
                  elems := [ { ItemName := "a", URL := "http://x/a.jpg", Instrument := "NAV",
                               Sol := 0, LMST := "l1", UTC := "t1" },
                             { ItemName := "c", URL := "http://x/c.jpg", Instrument := "MAST",
                               Sol := 0, LMST := "l3", UTC := "t3" } ],
                  spare := [] } },
                fetched := ["p3"],
                log := [.found 2 3 5] },
              .ret (true, none)) := by
  decide

/-- C5 on the code: `GetLatest _ 5` on the empty cache is a slice-bounds fault,
and no call of `GetLatest` returns a non-nil error. -/
theorem GetLatest_empty_faults :
    GetLatest sampleManifest 5 {} = ({}, .fault (.sliceBoundsOutOfRange 5 0)) ∧
    ∀ (manifest : ImageManifest) (count : Int) (w : World),
      (GetLatest manifest count w).2 = .fault (.sliceBoundsOutOfRange count w.imageCache.Images.cap) ∨
      ∃ loi, (GetLatest manifest count w).2 = .ret (loi, none) := by
  refine ⟨by decide, fun manifest count w => ?_⟩
  unfold GetLatest Slice.sliceTo
  split_ifs with h
  · exact Or.inr ⟨_, rfl⟩
  · exact Or.inl rfl

/-- C9 on the code: a manifest whose period entry carries
`"last_updated": "2017-01-01T00:00:00Z"` decodes without error to a
`ManifestSol` with an empty `LastUpdated`; the key the field is read from is
its Go name. -/
theorem FetchManifest_drops_last_updated :
    FetchManifest (fun _ => .response (some sampleManifestJSON)) "base"
      = ({ LatestSol := 7,
           Sols := [ { Sol := 7, NumImages := 2, CatalogURL := "p7", LastUpdated := "" } ],
           NumImages := 2 }, none) ∧
    (decodeManifestSol {} (.obj [("LastUpdated", .str "2017-01-01T00:00:00Z")])).1.LastUpdated
      = "2017-01-01T00:00:00Z" := by
  decide

end MarsImages
